import Mathlib

/-!
Verification development for the ssh2dns DNS-over-SSH forwarder.

The definitions below are a shallow embedding of the Go sources:
  internal/cache/cache.go      (answer cache: Cache.Get, Cache.Set, keying)
  internal/proxy/handler.go    (proxy front-end, single-flight key, handler)
  internal/ssh/connect.go      (client pool: trackErrLoopback, Acquire)
  internal/ssh/dns_client.go   (Client.ExchangeWithContext and its loopback
                                signals)
  internal/recdns/lookup.go    (lookup coordinator: handleRecursive,
                                useNextNS, tryHandleFromRoots,
                                assertAnswerForQuestion, Handle)
  the stream codec Connection.WriteMsg / Connection.ReadMsg / tcpMsgLen /
  tcpRead (recdns revision of the repository).

External libraries (miekg/dns pack/unpack, ristretto, puddle) are modelled
at their interface: the cache store is an idealized key-value map, the DNS
wire codec is a parameter pair pack/unpack, and the underlying puddle pool
acquire is an oracle argument.  Wall-clock time is passed explicitly as a
natural number of seconds.
-/

/-- One entry of a DNS question list: owner name and query type. -/
structure Question where
  name : String
  qtype : Nat
deriving DecidableEq, Repr

/-- Type-specific payload of a resource record, mirroring the dynamic type
of a miekg/dns RR (the Go type switches such as ns.(*dns.NS) inspect this,
while the Rrtype header field is kept separately below). -/
inductive RData where
  | a (ip : Nat)
  | ns (target : String)
  | cname (target : String)
  | soa (nsName : String)
  | otherData
deriving DecidableEq, Repr

/-- A DNS resource record: owner name, header Rrtype, header Ttl, payload. -/
structure RR where
  name : String
  rrtype : Nat
  ttl : Nat
  rdata : RData
deriving DecidableEq, Repr

def typeA : Nat := 1
def typeNS : Nat := 2
def typeCNAME : Nat := 5
def typeSOA : Nat := 6

/-- A DNS message as the core uses it: header id, header flags word
(opaque here), question list and the three record sections. -/
structure Msg where
  id : Nat
  flags : Nat
  question : List Question
  answer : List RR
  ns : List RR
  extra : List RR
deriving DecidableEq, Repr

/-- Qtype of the first question, as in the Go expression
msg.Question[0].Qtype (Go would panic on an empty question list; callers
always pass a parsed query with at least one question, the default 0 here
marks that unreachable case). -/
def Msg.q0type (m : Msg) : Nat :=
  match m.question with
  | q :: _ => q.qtype
  | [] => 0

/-- Name of the first question, as in msg.Question[0].Name. -/
def Msg.q0name (m : Msg) : String :=
  match m.question with
  | q :: _ => q.name
  | [] => ""

/-- newQuestionMsg from internal/recdns/lookup.go: msg.SetQuestion(domain,
dns.TypeA).  SetQuestion also assigns a fresh random header id and the
RecursionDesired bit; only the question list matters downstream, so id and
flags are fixed to 0 here. -/
def newQuestionMsg (domain : String) : Msg :=
  { id := 0, flags := 0
    question := [{ name := domain, qtype := typeA }]
    answer := [], ns := [], extra := [] }

/-! ## Answer cache (internal/cache/cache.go)

The ristretto store is modelled as an idealized total key-value map; its
probabilistic admission and cost accounting are outside the embedding. -/

/-- The value stored per question key: stored-at timestamp, the TTL taken
from the first available record, and the three record sections. -/
structure CacheContent where
  ts : Nat
  ttl : Nat
  answer : List RR
  ns : List RR
  extra : List RR
deriving DecidableEq, Repr

def CacheMap : Type := String → Option CacheContent

def CacheMap.empty : CacheMap := fun _ => none

def CacheMap.del (c : CacheMap) (k : String) : CacheMap :=
  fun x => if x = k then none else c x

def CacheMap.setEntry (c : CacheMap) (k : String) (v : CacheContent) : CacheMap :=
  fun x => if x = k then some v else c x

/-- keying from internal/cache/cache.go: the ordered concatenation of
name:qtype pairs of the whole question list, each pair followed by a
comma (fmt.Sprintf with a percent-s colon percent-d comma pattern). -/
def keying (req : Msg) : String :=
  req.question.foldl (fun key q => key ++ q.name ++ ":" ++ toString q.qtype ++ ",") ""

/-- getFirstAvailableSection from internal/cache/cache.go: the first record
of answer, else authority, else additional.  The Go function indexes
msg.Extra[0] unconditionally in the last case and would panic when all
three sections are empty; Cache.Set only calls it on a non-empty message,
so the none case is unreachable there. -/
def getFirstAvailableSection (msg : Msg) : Option RR :=
  match msg.answer with
  | rr :: _ => some rr
  | [] =>
    match msg.ns with
    | rr :: _ => some rr
    | [] => msg.extra.head?

/-- Cache.Get from internal/cache/cache.go.  Looks up the question key; on
a miss returns (nil, false).  When the entry is found and now is strictly
after ts + 3 * ttl seconds (in Go: time.Now().After(Ts.Add(Ttl * 3 *
time.Second)) with Ttl stored as a dimensionless Duration) the entry is
deleted from the store; in every found case the request message is
returned with its answer, authority and additional sections overwritten
from the entry, together with found = true. -/
def Cache.Get (c : CacheMap) (now : Nat) (msg : Msg) : (Option Msg × Bool) × CacheMap :=
  match c (keying msg) with
  | none => ((none, false), c)
  | some v =>
    let c' := if v.ts + 3 * v.ttl < now then c.del (keying msg) else c
    ((some { msg with answer := v.answer, ns := v.ns, extra := v.extra }, true), c')

/-- Cache.Set from internal/cache/cache.go: skip when all three sections of
the response are empty, otherwise store the sections under the request's
question key with the current time and the TTL of the first available
record. -/
def Cache.Set (c : CacheMap) (now : Nat) (req msg : Msg) : CacheMap :=
  if msg.answer = [] ∧ msg.ns = [] ∧ msg.extra = [] then c
  else
    match getFirstAvailableSection msg with
    | none => c
    | some fs =>
      c.setEntry (keying req)
        { ts := now, ttl := fs.ttl, answer := msg.answer, ns := msg.ns, extra := msg.extra }

/-- The single-flight key from Proxy.singleFlightRequestHandler in
internal/proxy/handler.go: fmt.Sprintf applied to the name and Qtype of
the FIRST question only (Go indexes r.Question[0] and would panic on an
empty question list; the empty default mirrors that unreachable case). -/
def singleFlightKey (r : Msg) : String :=
  match r.question with
  | [] => ""
  | q :: _ => q.name ++ ":" ++ toString q.qtype

/-! ## Concrete fixtures for the cache claims -/

def c1Req : Msg :=
  { id := 1, flags := 0, question := [{ name := "example.com.", qtype := typeA }]
    answer := [], ns := [], extra := [] }

def c1RR : RR := { name := "example.com.", rrtype := typeA, ttl := 1, rdata := .a 93 }

def c1Rsp : Msg := { c1Req with answer := [c1RR] }

def c1Cache : CacheMap := Cache.Set CacheMap.empty 0 c1Req c1Rsp

def c5RR : RR := { name := "zero.example.", rrtype := typeA, ttl := 0, rdata := .a 1 }

def c5Req : Msg :=
  { id := 0, flags := 0, question := [{ name := "zero.example.", qtype := typeA }]
    answer := [], ns := [], extra := [] }

def c5Rsp : Msg := { c5Req with answer := [c5RR] }

/-- C1: the claim states that Cache.Get on an entry whose stored-at plus
3 x TTL has passed deletes the entry AND reports a miss.  On the code the
second half is false: at the concrete expired entry below (stored at 0
with TTL 1, read at time 10 > 0 + 3 * 1) Get still reports found = true,
handing back the stale sections. -/
theorem C1_counterexample :
    c1Cache (keying c1Req) =
      some { ts := 0, ttl := 1, answer := [c1RR], ns := [], extra := [] } ∧
    0 + 3 * 1 < 10 ∧
    (Cache.Get c1Cache 10 c1Req).1.2 = true := by
  refine ⟨by decide, by decide, by decide⟩

/-- C1 (amended): when Cache.Get finds an entry whose stored-at plus
3 x TTL is strictly before now, it deletes the entry from the store but
still returns the request with the stored (stale) sections spliced in and
found = true; it does not report a miss. -/
theorem C1_expired_hit_and_delete (c : CacheMap) (now : Nat) (msg : Msg) (v : CacheContent)
    (hfound : c (keying msg) = some v) (hexp : v.ts + 3 * v.ttl < now) :
    (Cache.Get c now msg).1 =
      (some { msg with answer := v.answer, ns := v.ns, extra := v.extra }, true) ∧
    (Cache.Get c now msg).2 (keying msg) = none := by
  unfold Cache.Get
  rw [hfound]
  simp [hexp, CacheMap.del]

/-- Closed instance of C1_expired_hit_and_delete at the concrete expired
entry. -/
theorem C1_expired_hit_and_delete_witness :
    (Cache.Get c1Cache 10 c1Req).1 =
      (some { c1Req with answer := [c1RR], ns := [], extra := [] }, true) ∧
    (Cache.Get c1Cache 10 c1Req).2 (keying c1Req) = none :=
  C1_expired_hit_and_delete c1Cache 10 c1Req
    { ts := 0, ttl := 1, answer := [c1RR], ns := [], extra := [] }
    (by decide) (by decide)

/-- C10: on a cache hit, Cache.Get returns the request message with only
its answer, authority and additional sections overwritten from the stored
entry; the header id, the flags and the question list are unchanged. -/
theorem C10_get_overwrites_only_sections (c : CacheMap) (now : Nat) (msg : Msg)
    (v : CacheContent) (hfound : c (keying msg) = some v) :
    (Cache.Get c now msg).1.1 =
      some { id := msg.id, flags := msg.flags, question := msg.question,
             answer := v.answer, ns := v.ns, extra := v.extra } ∧
    (Cache.Get c now msg).1.2 = true := by
  unfold Cache.Get
  rw [hfound]
  exact ⟨rfl, rfl⟩

/-- Closed instance of C10_get_overwrites_only_sections on the concrete
cache. -/
theorem C10_get_overwrites_only_sections_witness :
    (Cache.Get c1Cache 2 c1Req).1.1 =
      some { id := c1Req.id, flags := c1Req.flags, question := c1Req.question,
             answer := [c1RR], ns := [], extra := [] } ∧
    (Cache.Get c1Cache 2 c1Req).1.2 = true :=
  C10_get_overwrites_only_sections c1Cache 2 c1Req
    { ts := 0, ttl := 1, answer := [c1RR], ns := [], extra := [] } (by decide)

/-- C5: the claim states Cache.Set never admits an entry whose first-record
TTL is 0.  On the code this is false: at the concrete response below whose
only answer record has TTL 0, Set stores an entry (with ttl 0) where the
cache previously held nothing. -/
theorem C5_counterexample :
    (Cache.Set CacheMap.empty 7 c5Req c5Rsp) (keying c5Req) =
      some { ts := 7, ttl := 0, answer := [c5RR], ns := [], extra := [] } ∧
    CacheMap.empty (keying c5Req) = none := by
  refine ⟨by decide, by decide⟩

/-- C5 (amended): Cache.Set never admits an entry whose answer, authority
and additional sections are all empty, leaving the cache unchanged; but a
response with a non-empty answer section IS admitted whatever the TTL of
its first record, including TTL 0. -/
theorem C5_set_admission (c : CacheMap) (now : Nat) (req msg : Msg) :
    (msg.answer = [] ∧ msg.ns = [] ∧ msg.extra = [] → Cache.Set c now req msg = c) ∧
    (∀ fs rest, msg.answer = fs :: rest →
      (Cache.Set c now req msg) (keying req) =
        some { ts := now, ttl := fs.ttl, answer := msg.answer, ns := msg.ns,
               extra := msg.extra }) := by
  constructor
  · intro hempty
    unfold Cache.Set
    rw [if_pos hempty]
  · intro fs rest hans
    unfold Cache.Set
    rw [if_neg (by simp [hans])]
    simp only [getFirstAvailableSection, hans]
    simp [CacheMap.setEntry]

/-- Closed instance of C5_set_admission: the all-empty message is skipped
and the TTL-0 response is admitted. -/
theorem C5_set_admission_witness :
    Cache.Set CacheMap.empty 7 c5Req c5Req = CacheMap.empty ∧
    (Cache.Set CacheMap.empty 7 c5Req c5Rsp) (keying c5Req) =
      some { ts := 7, ttl := 0, answer := c5Rsp.answer, ns := c5Rsp.ns,
             extra := c5Rsp.extra } :=
  ⟨(C5_set_admission CacheMap.empty 7 c5Req c5Req).1 ⟨rfl, rfl, rfl⟩,
   (C5_set_admission CacheMap.empty 7 c5Req c5Rsp).2 c5RR [] rfl⟩

/-! ## Question key versus single-flight key (claim C4) -/

def c4m1 : Msg :=
  { id := 0, flags := 0
    question := [{ name := "a.", qtype := 1 }, { name := "b.", qtype := 1 }]
    answer := [], ns := [], extra := [] }

def c4m2 : Msg :=
  { c4m1 with question := [{ name := "a.", qtype := 1 }, { name := "c.", qtype := 1 }] }

/-- C4: the claim states the cache key and the single-flight key are the
same function of the request, so two requests share a flight iff they
share a cache slot.  On the code this is false: the flight key reads only
the first question, so the two concrete two-question messages below share
a flight key while their cache keys differ; the two keys also differ on
the first message itself. -/
theorem C4_counterexample :
    singleFlightKey c4m1 = singleFlightKey c4m2 ∧
    keying c4m1 ≠ keying c4m2 ∧
    keying c4m1 ≠ singleFlightKey c4m1 := by
  refine ⟨by decide, by decide, by decide⟩

theorem emptyAppend (s : String) : "" ++ s = s := by
  cases s
  rfl

theorem appendCommaCancel (s t : String) (h : s ++ "," = t ++ ",") : s = t := by
  cases s with
  | mk l1 =>
    cases t with
    | mk l2 =>
      have hd : l1 ++ [','] = l2 ++ [','] := congrArg String.data h
      exact congrArg String.mk (List.append_cancel_right hd)

/-- C4 (amended): the cache key is the ordered concatenation of the
name:qtype pairs of the whole question list (each followed by a comma),
while the single-flight key is the first question's name:qtype pair alone.
For a single-question request the cache key is exactly the flight key
followed by a comma, so on single-question requests two messages share a
flight iff they share a cache slot; requests differing only after their
first question share a flight but occupy distinct cache slots. -/
theorem C4_keys_single_question (q1 q2 : Question) (m1 m2 : Msg)
    (h1 : m1.question = [q1]) (h2 : m2.question = [q2]) :
    keying m1 = singleFlightKey m1 ++ "," ∧
    (keying m1 = keying m2 ↔ singleFlightKey m1 = singleFlightKey m2) := by
  have hk1 : keying m1 = "" ++ q1.name ++ ":" ++ toString q1.qtype ++ "," := by
    unfold keying
    rw [h1]
    simp only [List.foldl_cons, List.foldl_nil]
  have hs1 : singleFlightKey m1 = q1.name ++ ":" ++ toString q1.qtype := by
    unfold singleFlightKey
    rw [h1]
  have hk2 : keying m2 = "" ++ q2.name ++ ":" ++ toString q2.qtype ++ "," := by
    unfold keying
    rw [h2]
    simp only [List.foldl_cons, List.foldl_nil]
  have hs2 : singleFlightKey m2 = q2.name ++ ":" ++ toString q2.qtype := by
    unfold singleFlightKey
    rw [h2]
  have e1 : keying m1 = singleFlightKey m1 ++ "," := by
    rw [hk1, hs1, emptyAppend q1.name]
  have e2 : keying m2 = singleFlightKey m2 ++ "," := by
    rw [hk2, hs2, emptyAppend q2.name]
  refine ⟨e1, ?_, ?_⟩
  · intro h
    apply appendCommaCancel
    rw [← e1, ← e2]
    exact h
  · intro h
    rw [e1, e2, h]

/-- Closed instance of C4_keys_single_question on two concrete
single-question requests. -/
theorem C4_keys_single_question_witness :
    keying c1Req = singleFlightKey c1Req ++ "," ∧
    (keying c1Req = keying c5Req ↔ singleFlightKey c1Req = singleFlightKey c5Req) :=
  C4_keys_single_question { name := "example.com.", qtype := typeA }
    { name := "zero.example.", qtype := typeA } c1Req c5Req rfl rfl

/-! ## Error taxonomy (internal/errors/types.go) -/

/-- The failure kinds the core distinguishes; wrapping variants carry
their cause.  ioErr stands for an opaque lower-level error (ssh/net). -/
inductive Err where
  | ctxCanceled
  | connectionTimeout
  | reconnecting
  | ioErr (code : Nat)
  | dnsDial (cause : Err)
  | dnsWrite (cause : Err)
  | dnsRead (cause : Err)
  | authorityIsNotNS (rrName : String)
  | noARecordsForNS (nsName : String)
  | domainNotFound (name : String) (cause : Err)
  | lookupFailed (cause : Err)
  | fuelOut
deriving DecidableEq, Repr

/-! ## Tunnel client pool (internal/ssh/connect.go)

The err-loopback channel carries error values; trackErrLoopback only
distinguishes the errResetErrCount sentinel from everything else, so a
channel value is modelled as reset or an error signal. -/

/-- A value on the pool's loopback channel: the errResetErrCount sentinel
sent after a successful exchange, or an error value. -/
inductive LoopbackSignal where
  | reset
  | errSig (e : Err)
deriving DecidableEq, Repr

def maxErrThreshold : Nat := 5

/-- The two process-wide atomics governing the reconnect state machine. -/
structure PoolState where
  errCounter : Nat
  reconnecting : Bool
deriving DecidableEq, Repr

/-- Observable side effects of the reconnect transition, in program order:
pool.Reset, the atomic stores, the Acquire attempts with their timeout in
seconds, Release of the probe client, and the retry sleeps. -/
inductive PoolAction where
  | resetPool
  | setReconnecting (b : Bool)
  | acquireAttempt (timeoutSecs : Nat)
  | releaseClient
  | storeErrCounter (n : Nat)
  | sleep (secs : Nat)
deriving DecidableEq, Repr

/-- The retry loop of the detached reconnect goroutine in
trackErrLoopback: each iteration attempts pool.Acquire with a 5-second
timeout (recdns.DefaultTimeout); on success it releases the probe client,
stores reconnecting = false and errCounter = 0 and breaks; on failure it
sleeps 3 seconds and retries.  The list argument gives the outcome of
each successive Acquire attempt (true = success); an empty list leaves
the loop still running, state unchanged. -/
def reconnectLoop : List Bool → PoolState → PoolState × List PoolAction
  | [], st => (st, [])
  | true :: _, st =>
    ({ st with reconnecting := false, errCounter := 0 },
     [.acquireAttempt 5, .releaseClient, .setReconnecting false, .storeErrCounter 0])
  | false :: rest, st =>
    let r := reconnectLoop rest st
    (r.1, .acquireAttempt 5 :: .sleep 3 :: r.2)

/-- One iteration of ClientPool.trackErrLoopback for one channel value:
drop the signal while reconnecting; on the reset sentinel store
errCounter = 0; on any error increment errCounter and, if it reached
maxErrThreshold, run the detached transition, which in program order
calls pool.Reset() FIRST and stores reconnecting = true AFTER, then
enters the retry loop. -/
def trackErrLoopbackStep (st : PoolState) (sig : LoopbackSignal)
    (acquireOutcomes : List Bool) : PoolState × List PoolAction :=
  if st.reconnecting then (st, [])
  else
    match sig with
    | .reset => ({ st with errCounter := 0 }, [])
    | .errSig _ =>
      let st' : PoolState := { st with errCounter := st.errCounter + 1 }
      if maxErrThreshold ≤ st'.errCounter then
        let r := reconnectLoop acquireOutcomes { st' with reconnecting := true }
        (r.1, .resetPool :: .setReconnecting true :: r.2)
      else (st', [])

/-- C2: the claim orders the transition as set reconnecting = true, then
reset the pool.  In the code the order is the reverse: at the concrete
state with errCounter 4 receiving a fifth error, the emitted trace starts
with resetPool at index 0 and setReconnecting true only at index 1, so
setReconnecting true does not precede resetPool. -/
theorem C2_counterexample :
    ((trackErrLoopbackStep { errCounter := 4, reconnecting := false }
        (.errSig (.ioErr 0)) [true]).2).take 2 =
      [PoolAction.resetPool, PoolAction.setReconnecting true] ∧
    ¬ (((trackErrLoopbackStep { errCounter := 4, reconnecting := false }
        (.errSig (.ioErr 0)) [true]).2).indexOf (PoolAction.setReconnecting true) <
       ((trackErrLoopbackStep { errCounter := 4, reconnecting := false }
        (.errSig (.ioErr 0)) [true]).2).indexOf PoolAction.resetPool) := by
  refine ⟨by decide, by decide⟩

theorem reconnectLoop_firstSuccess (fails : Nat) (st : PoolState) :
    reconnectLoop (List.replicate fails false ++ [true]) st =
      ({ st with reconnecting := false, errCounter := 0 },
       (List.replicate fails [PoolAction.acquireAttempt 5, PoolAction.sleep 3]).flatten ++
         [.acquireAttempt 5, .releaseClient, .setReconnecting false, .storeErrCounter 0]) := by
  induction fails with
  | zero => rfl
  | succ n ih =>
    simp only [List.replicate_succ, List.cons_append, reconnectLoop, List.append_eq, ih,
      List.flatten_cons, List.cons_append, List.nil_append, List.append_assoc]

/-- C2 (amended): when the error counter reaches maxErrThreshold = 5 while
reconnecting is false, the pool first resets the pool (destroying all
clients) and only then sets reconnecting = true, then loops re-acquiring a
client with a 5-second timeout (sleeping 3 s after each failure), setting
reconnecting = false and the error counter to 0 on the first success;
while reconnecting is true every incoming signal is dropped with no state
change and no action. -/
theorem C2_reconnect_transition (st : PoolState) (e : Err) (fails : Nat)
    (hrec : st.reconnecting = false)
    (hcnt : maxErrThreshold ≤ st.errCounter + 1) :
    (trackErrLoopbackStep st (.errSig e) (List.replicate fails false ++ [true])).2 =
      PoolAction.resetPool :: PoolAction.setReconnecting true ::
        ((List.replicate fails [PoolAction.acquireAttempt 5, PoolAction.sleep 3]).flatten ++
         [.acquireAttempt 5, .releaseClient, .setReconnecting false, .storeErrCounter 0]) ∧
    (trackErrLoopbackStep st (.errSig e) (List.replicate fails false ++ [true])).1 =
      { errCounter := 0, reconnecting := false } ∧
    (∀ st2 sig outs, st2.reconnecting = true →
      trackErrLoopbackStep st2 sig outs = (st2, [])) := by
  refine ⟨?_, ?_, ?_⟩
  · unfold trackErrLoopbackStep
    simp only [hrec, Bool.false_eq_true, if_false, if_pos hcnt, reconnectLoop_firstSuccess]
  · unfold trackErrLoopbackStep
    simp only [hrec, Bool.false_eq_true, if_false, if_pos hcnt, reconnectLoop_firstSuccess]
  · intro st2 sig outs h2
    unfold trackErrLoopbackStep
    simp [h2]

/-- Closed instance of C2_reconnect_transition: fifth error at counter 4,
one failed re-acquire then success. -/
theorem C2_reconnect_transition_witness :
    (trackErrLoopbackStep { errCounter := 4, reconnecting := false }
        (.errSig (.ioErr 0)) (List.replicate 1 false ++ [true])).2 =
      PoolAction.resetPool :: PoolAction.setReconnecting true ::
        ((List.replicate 1 [PoolAction.acquireAttempt 5, PoolAction.sleep 3]).flatten ++
         [.acquireAttempt 5, .releaseClient, .setReconnecting false, .storeErrCounter 0]) ∧
    (trackErrLoopbackStep { errCounter := 4, reconnecting := false }
        (.errSig (.ioErr 0)) (List.replicate 1 false ++ [true])).1 =
      { errCounter := 0, reconnecting := false } ∧
    (∀ st2 sig outs, st2.reconnecting = true →
      trackErrLoopbackStep st2 sig outs = (st2, [])) :=
  C2_reconnect_transition { errCounter := 4, reconnecting := false }
    (.ioErr 0) 1 rfl (by decide)

/-- ClientPool.Acquire from internal/ssh/connect.go: when the reconnecting
flag is set, fail immediately with the reconnecting error without touching
the underlying puddle pool; otherwise delegate to the underlying pool's
Acquire, whose outcome (it blocks until a client is free or the context
is cancelled) is the oracle argument. -/
def ClientPool.Acquire (reconnecting : Bool) (underlying : Except Err Nat) : Except Err Nat :=
  if reconnecting then .error .reconnecting else underlying

/-- C6: while reconnecting is set every Acquire fails immediately with the
Reconnecting error whatever the underlying pool would have produced (so no
client is handed out and the underlying blocking acquire is not consulted);
with the flag clear, Acquire is exactly the underlying pool's blocking
acquire. -/
theorem C6_acquire_reconnecting (underlying : Except Err Nat) :
    ClientPool.Acquire true underlying = .error Err.reconnecting ∧
    ClientPool.Acquire false underlying = underlying :=
  ⟨rfl, rfl⟩

/-! ## Client.ExchangeWithContext (internal/ssh/dns_client.go)

The network outcome of each step (dial inside the tunnel, message write,
message read) is an oracle: none means the step succeeds, some c means it
fails with cause c.  The function returns the Go pair (response, error)
and the list of values sent on the pool's loopback channel. -/

structure ExchangeEnv where
  dialErr : Option Err
  writeErr : Option Err
  readErr : Option Err
  response : Msg
deriving Repr

/-- Client.ExchangeWithContext: on dial failure wrap the cause in
DNSDialErr, send that same error on the loopback channel and return it; on
write failure return DNSWriteErr (no signal is sent); on read failure
return DNSReadErr (no signal is sent); on success send the reset sentinel
and return the response. -/
def Client.ExchangeWithContext (env : ExchangeEnv) :
    (Option Msg × Option Err) × List LoopbackSignal :=
  match env.dialErr with
  | some c => ((none, some (.dnsDial c)), [.errSig (.dnsDial c)])
  | none =>
    match env.writeErr with
    | some c => ((none, some (.dnsWrite c)), [])
    | none =>
      match env.readErr with
      | some c => ((none, some (.dnsRead c)), [])
      | none => ((some env.response, none), [.reset])

def c3EnvWrite : ExchangeEnv :=
  { dialErr := none, writeErr := some (.ioErr 3), readErr := none, response := c1Rsp }

def c3EnvOk : ExchangeEnv :=
  { dialErr := none, writeErr := none, readErr := none, response := c1Rsp }

/-- C3: the claim states the pool receives exactly one signal per
exchange, the specific error signal whenever dial, write or read fails.
On the code this is false for write (and read) failures: at the concrete
exchange below whose write step fails, the exchange returns the
DNSWriteErr but sends no signal at all to the pool. -/
theorem C3_counterexample :
    (Client.ExchangeWithContext c3EnvWrite).1.2 = some (Err.dnsWrite (Err.ioErr 3)) ∧
    (Client.ExchangeWithContext c3EnvWrite).2 = [] :=
  ⟨rfl, rfl⟩

/-- C3 (amended): per exchange the pool receives the reset signal exactly
once when dial, write and read all succeed, and the specific dial error
signal exactly once when the dial fails; a write failure or a read
failure returns the corresponding error to the caller but sends no signal
to the pool. -/
theorem C3_signals (env : ExchangeEnv) :
    (env.dialErr = none → env.writeErr = none → env.readErr = none →
      (Client.ExchangeWithContext env).2 = [.reset] ∧
      (Client.ExchangeWithContext env).1 = (some env.response, none)) ∧
    (∀ c, env.dialErr = some c →
      (Client.ExchangeWithContext env).2 = [.errSig (.dnsDial c)] ∧
      (Client.ExchangeWithContext env).1 = (none, some (.dnsDial c))) ∧
    (∀ c, env.dialErr = none → env.writeErr = some c →
      (Client.ExchangeWithContext env).2 = [] ∧
      (Client.ExchangeWithContext env).1 = (none, some (.dnsWrite c))) ∧
    (∀ c, env.dialErr = none → env.writeErr = none → env.readErr = some c →
      (Client.ExchangeWithContext env).2 = [] ∧
      (Client.ExchangeWithContext env).1 = (none, some (.dnsRead c))) := by
  refine ⟨?_, ?_, ?_, ?_⟩
  · intro h1 h2 h3
    unfold Client.ExchangeWithContext
    rw [h1, h2, h3]
    exact ⟨rfl, rfl⟩
  · intro c h1
    unfold Client.ExchangeWithContext
    rw [h1]
    exact ⟨rfl, rfl⟩
  · intro c h1 h2
    unfold Client.ExchangeWithContext
    rw [h1, h2]
    exact ⟨rfl, rfl⟩
  · intro c h1 h2 h3
    unfold Client.ExchangeWithContext
    rw [h1, h2, h3]
    exact ⟨rfl, rfl⟩

/-- Closed instance of C3_signals: the successful exchange emits exactly
the reset signal; the failing-write exchange emits nothing. -/
theorem C3_signals_witness :
    (Client.ExchangeWithContext c3EnvOk).2 = [LoopbackSignal.reset] ∧
    (Client.ExchangeWithContext c3EnvWrite).2 = [] :=
  ⟨((C3_signals c3EnvOk).1 rfl rfl rfl).1,
   ((C3_signals c3EnvWrite).2.2.1 (Err.ioErr 3) rfl rfl).1⟩

/-! ## Stream-framed DNS connection (Connection in the recdns package)

The stream which the tunnel provides is modelled by the byte sequence
still to be delivered plus a chunking schedule: each Conn.Read call
returns at least one byte (when data remains) and at most the current
schedule entry, never more than the caller's buffer.  The wire codec
pack/unpack (miekg/dns Pack and Unpack, an external library) is a
parameter. -/

structure ByteStream where
  data : List Nat
  sched : List Nat
deriving Repr

/-- Size cap of the next read: the head of the schedule clamped to the
buffer size and at least 1; an exhausted schedule reads the whole
buffer. -/
def chunkOf (sch : List Nat) (want : Nat) : Nat :=
  match sch with
  | [] => want
  | c0 :: _ => max 1 (min c0 want)

/-- One Conn.Read into a buffer of size want: returns none on a read
error (end of data), otherwise between 1 and want bytes as bounded by the
head of the schedule; a read of an empty buffer returns immediately. -/
def ByteStream.read (s : ByteStream) (want : Nat) : Option (List Nat × ByteStream) :=
  if want = 0 then some ([], s)
  else if s.data = [] then none
  else
    let k := min (chunkOf s.sched want) s.data.length
    some (s.data.take k, { data := s.data.drop k, sched := s.sched.tail })

/-- tcpMsgLen: read the first two bytes of the stream as a big-endian
length, tolerating a one-byte short read by issuing a second read for the
remaining byte.  The final wildcard arms mirror no Go branch: a read into
a two-byte buffer yields one or two bytes. -/
def tcpMsgLen (s : ByteStream) : Option (Nat × ByteStream) :=
  match s.read 2 with
  | none => none
  | some (p1, s1) =>
    if p1.length = 1 then
      match s1.read 1 with
      | none => none
      | some (p2, s2) =>
        match p1 ++ p2 with
        | [b0, b1] => some (b0 * 256 + b1, s2)
        | _ => none
    else
      match p1 with
      | [b0, b1] => some (b0 * 256 + b1, s1)
      | _ => none

/-- The loop of tcpRead: call Read until the buffer of the given size is
full, failing when a read errors.  The fuel equals the number of bytes
still needed; since every successful read returns at least one byte this
covers every Go execution that terminates. -/
def tcpReadLoop : Nat → ByteStream → Nat → Option (List Nat × ByteStream)
  | _, s, 0 => some ([], s)
  | 0, _, _ + 1 => none
  | fuel + 1, s, need + 1 =>
    match s.read (need + 1) with
    | none => none
    | some (p, s1) =>
      match tcpReadLoop fuel s1 (need + 1 - p.length) with
      | none => none
      | some (q, s2) => some (p ++ q, s2)

/-- tcpRead: fill an l-byte buffer with as many reads as needed. -/
def tcpRead (s : ByteStream) (l : Nat) : Option (List Nat × ByteStream) :=
  tcpReadLoop l s l

/-- Connection.Write: prepend the 16-bit big-endian length (uint16
truncation of the payload length) and emit in a single call. -/
def Connection.Write (out : List Nat) : List Nat :=
  (out.length % 65536) / 256 :: out.length % 256 :: out

/-- Connection.WriteMsg: pack the message and Write the framed bytes. -/
def Connection.WriteMsg (pack : Msg → Option (List Nat)) (m : Msg) : Option (List Nat) :=
  match pack m with
  | none => none
  | some out => some (Connection.Write out)

/-- Connection.ReadMsg: read the two-byte length, read exactly that many
payload bytes, unpack. -/
def Connection.ReadMsg (unpack : List Nat → Option Msg) (s : ByteStream) :
    Option (Msg × ByteStream) :=
  match tcpMsgLen s with
  | none => none
  | some (l, s1) =>
    match tcpRead s1 l with
    | none => none
    | some (p, s2) =>
      match unpack p with
      | none => none
      | some m => some (m, s2)

theorem ByteStream.read_spec (d sch : List Nat) (want : Nat)
    (hd : d ≠ []) (hw : 0 < want) :
    ∃ k, 1 ≤ k ∧ k ≤ want ∧ k ≤ d.length ∧
      ByteStream.read ⟨d, sch⟩ want = some (d.take k, ⟨d.drop k, sch.tail⟩) := by
  have hc : 1 ≤ chunkOf sch want := by
    cases sch with
    | nil => exact hw
    | cons c0 rest => exact Nat.le_max_left 1 _
  have hcw : chunkOf sch want ≤ want := by
    cases sch with
    | nil => exact Nat.le_refl want
    | cons c0 rest =>
      exact Nat.max_le.mpr ⟨hw, Nat.min_le_right c0 want⟩
  have hdl : 1 ≤ d.length := by
    cases d with
    | nil => exact absurd rfl hd
    | cons a t => exact Nat.succ_le_succ (Nat.zero_le _)
  refine ⟨min (chunkOf sch want) d.length,
    Nat.le_min.mpr ⟨hc, hdl⟩, Nat.le_trans (Nat.min_le_left _ _) hcw,
    Nat.min_le_right _ _, ?_⟩
  unfold ByteStream.read
  rw [if_neg (Nat.pos_iff_ne_zero.mp hw), if_neg hd]

theorem tcpMsgLen_frame (l : Nat) (out sched : List Nat) :
    ∃ sched2, tcpMsgLen ⟨l / 256 :: l % 256 :: out, sched⟩ = some (l, ⟨out, sched2⟩) := by
  obtain ⟨k, hk1, hk2, _, hread⟩ :=
    ByteStream.read_spec (l / 256 :: l % 256 :: out) sched 2 (by simp) (by decide)
  have hval : l / 256 * 256 + l % 256 = l := by
    have := Nat.div_add_mod l 256
    omega
  interval_cases k
  · refine ⟨sched.tail.tail, ?_⟩
    unfold tcpMsgLen
    rw [hread]
    simp only [List.take, List.drop, List.length_cons, List.length_nil, if_pos rfl]
    obtain ⟨k2, hk21, hk22, _, hread2⟩ :=
      ByteStream.read_spec (l % 256 :: out) sched.tail 1 (by simp) (by decide)
    have : k2 = 1 := Nat.le_antisymm hk22 hk21
    subst this
    rw [hread2]
    simpa using hval
  · refine ⟨sched.tail, ?_⟩
    unfold tcpMsgLen
    rw [hread]
    simp only [List.take, List.drop, List.length_cons, List.length_nil]
    rw [if_neg (by decide)]
    simpa using hval

theorem tcpReadLoop_exact (fuel : Nat) :
    ∀ (need : Nat) (d sch : List Nat), need ≤ fuel → d.length = need →
      ∃ sch2, tcpReadLoop fuel ⟨d, sch⟩ need = some (d, ⟨[], sch2⟩) := by
  induction fuel with
  | zero =>
    intro need d sch hle hlen
    have hn : need = 0 := Nat.le_zero.mp hle
    subst hn
    have hd : d = [] := List.length_eq_zero.mp hlen
    subst hd
    exact ⟨sch, rfl⟩
  | succ fu ih =>
    intro need d sch hle hlen
    cases need with
    | zero =>
      have hd : d = [] := List.length_eq_zero.mp hlen
      subst hd
      exact ⟨sch, rfl⟩
    | succ m =>
      have hd : d ≠ [] := by
        intro h
        rw [h] at hlen
        exact absurd hlen.symm (Nat.succ_ne_zero m)
      obtain ⟨k, hk1, hk2, hk3, hread⟩ :=
        ByteStream.read_spec d sch (m + 1) hd (Nat.succ_pos m)
      have hdrop : (d.drop k).length = m + 1 - k := by
        rw [List.length_drop, hlen]
      obtain ⟨sch2, hrec⟩ := ih (m + 1 - k) (d.drop k) sch.tail
        (by omega) hdrop
      refine ⟨sch2, ?_⟩
      have hlent : (d.take k).length = k := by
        rw [List.length_take]
        exact Nat.min_eq_left (by omega)
      simp only [tcpReadLoop, hread, hlent, hrec, List.take_append_drop]

/-- C7: writing a serializable message M with the length-prefixed
WriteMsg and reading the produced bytes back with ReadMsg (two-byte
big-endian length with short-read tolerance, then payload reads as
needed) yields a message whose question, answer, authority and additional
sections equal those of M, for every chunking of the stream.  The
hypotheses are the wire codec's contract for a serializable M: packing
succeeds with a payload below 65536 bytes and unpacking inverts it. -/
theorem C7_write_read_roundtrip (pack : Msg → Option (List Nat))
    (unpack : List Nat → Option Msg) (M : Msg) (out wire sched : List Nat)
    (hpack : pack M = some out)
    (hlen : out.length < 65536)
    (hunpack : unpack out = some M)
    (hwire : Connection.WriteMsg pack M = some wire) :
    ∃ M2 s2, Connection.ReadMsg unpack ⟨wire, sched⟩ = some (M2, s2) ∧
      M2.question = M.question ∧ M2.answer = M.answer ∧
      M2.ns = M.ns ∧ M2.extra = M.extra := by
  have hw : wire = out.length / 256 :: out.length % 256 :: out := by
    have : Connection.WriteMsg pack M = some (Connection.Write out) := by
      unfold Connection.WriteMsg
      rw [hpack]
    rw [this] at hwire
    have hmod : out.length % 65536 = out.length := Nat.mod_eq_of_lt hlen
    unfold Connection.Write at hwire
    rw [hmod] at hwire
    exact (Option.some.injEq _ _).mp hwire.symm
  subst hw
  obtain ⟨sched2, hmsglen⟩ := tcpMsgLen_frame out.length out sched
  obtain ⟨sched3, hpayload⟩ := tcpReadLoop_exact out.length out.length out sched2
    (Nat.le_refl _) rfl
  refine ⟨M, ⟨[], sched3⟩, ?_, rfl, rfl, rfl, rfl⟩
  simp only [Connection.ReadMsg, hmsglen, tcpRead, hpayload, hunpack]

def c7Msg : Msg := c1Rsp

def c7pack : Msg → Option (List Nat) := fun m => if m = c7Msg then some [7] else none

def c7unpack : List Nat → Option Msg := fun p => if p = [7] then some c7Msg else none

/-- Closed instance of C7_write_read_roundtrip: a one-byte payload framed
as 0, 1, 7 on the wire, delivered one byte at a time so the short read of
the length prefix is exercised. -/
theorem C7_write_read_roundtrip_witness :
    ∃ M2 s2, Connection.ReadMsg c7unpack ⟨[0, 1, 7], [1, 1, 1]⟩ = some (M2, s2) ∧
      M2.question = c7Msg.question ∧ M2.answer = c7Msg.answer ∧
      M2.ns = c7Msg.ns ∧ M2.extra = c7Msg.extra :=
  C7_write_read_roundtrip c7pack c7unpack c7Msg [7] [0, 1, 7] [1, 1, 1]
    (by decide) (by decide) (by decide) (by decide)

/-! ## Lookup coordinator (internal/recdns/lookup.go)

The coordinator is embedded with an explicit fuel bounding recursion
depth (the Go recursion is bounded only by the per-query deadline); every
call uses one unit.  The context, the pool acquisition and the upstream
exchange are oracles in the environment; the cache is threaded through
every call. -/

structure LC where
  rootMap : List Nat
  fallbackTargetNS : Nat
  recursive : Bool

structure LookupEnv where
  ctx : Option Err
  acquire : Option Err
  exch : Nat → Msg → Except Err Msg
  now : Nat

/-- The IPv4 of a record, as the cast nextDNS.(*dns.A).A; records reaching
the cast were filtered to Rrtype A, and Go would panic on a record whose
dynamic type is not A, marked here by the default 0. -/
def RR.ipOf (rr : RR) : Nat :=
  match rr.rdata with
  | .a ip => ip
  | _ => 0

/-- The target of answer.Answer[0] cast to CNAME, as cname.Target; Go
would nil-dereference on another dynamic type, marked by the empty
default. -/
def RR.cnameTargetOf (rr : RR) : String :=
  match rr.rdata with
  | .cname t => t
  | _ => ""

mutual

/-- handleRecursive: check the context, acquire a pooled client, exchange
the message with the server; on answers run assertAnswerForQuestion and,
when it succeeds, cache and return its message; otherwise treat the
response as a delegation via useNextNS (note the Go shadowing: useNextNS
receives the ORIGINAL exchange response). -/
def handleRecursive (fu : Nat) (lc : LC) (env : LookupEnv) (cache : CacheMap)
    (msg : Msg) (srv : Nat) : (Option Msg × Option Err) × CacheMap :=
  match fu with
  | 0 => ((none, some .fuelOut), cache)
  | fu' + 1 =>
    match env.ctx with
    | some e => ((none, some e), cache)
    | none =>
      match env.acquire with
      | some e => ((none, some e), cache)
      | none =>
        match env.exch srv msg with
        | .error e => ((none, some e), cache)
        | .ok rspMsg =>
          if 0 < rspMsg.answer.length then
            match assertAnswerForQuestion fu' lc env cache msg rspMsg with
            | ((some rsp2, none), cache2) =>
              ((some rsp2, none), Cache.Set cache2 env.now msg rsp2)
            | ((none, none), cache2) => useNextNS fu' lc env cache2 msg rspMsg
            | ((_, some _), cache2) => useNextNS fu' lc env cache2 msg rspMsg
          else useNextNS fu' lc env cache msg rspMsg

/-- useNextNS: iterate the delegation response's authority section with
the running last-recorded error starting at nil. -/
def useNextNS (fu : Nat) (lc : LC) (env : LookupEnv) (cache : CacheMap)
    (msg : Msg) (response : Msg) : (Option Msg × Option Err) × CacheMap :=
  match fu with
  | 0 => ((none, some .fuelOut), cache)
  | fu' + 1 => useNextNSLoop fu' lc env cache msg response response.ns none

/-- The for-loop body of useNextNS over the authority records: a non-NS
non-SOA record records AuthorityIsNotNS and continues; otherwise the NS
name's glue addresses come from the additional section when it is
non-empty, else from the cache, else from a fresh walk from the roots
(whose error aborts the whole loop). -/
def useNextNSLoop (fu : Nat) (lc : LC) (env : LookupEnv) (cache : CacheMap)
    (msg : Msg) (response : Msg) (nsList : List RR) (err : Option Err) :
    (Option Msg × Option Err) × CacheMap :=
  match fu with
  | 0 => ((none, some .fuelOut), cache)
  | fu' + 1 =>
    match nsList with
    | [] => ((none, err), cache)
    | ns :: rest =>
      match env.ctx with
      | some e => ((none, some e), cache)
      | none =>
        match (match ns.rdata with
               | .ns target => some target
               | .soa soaNs => some soaNs
               | _ => none) with
        | none =>
          useNextNSLoop fu' lc env cache msg response rest
            (some (.authorityIsNotNS ns.name))
        | some nextNsString =>
          if 0 < response.extra.length then
            useNextNSGlue fu' lc env cache msg response rest
              (response.extra.filter (fun item =>
                item.rrtype == typeA && item.name == nextNsString)) ns
          else
            match Cache.Get cache env.now (newQuestionMsg nextNsString) with
            | ((some nextNsAnswer, true), cache2) =>
              useNextNSGlue fu' lc env cache2 msg response rest
                (nextNsAnswer.answer.filter (fun item => item.rrtype == typeA)) ns
            | ((_, _), cache2) =>
              match tryHandleFromRoots fu' lc env cache2
                  (newQuestionMsg nextNsString) with
              | ((_, some e), cache3) => ((none, some e), cache3)
              | ((nextNsAnswerOpt, none), cache3) =>
                useNextNSGlue fu' lc env cache3 msg response rest
                  (((nextNsAnswerOpt.map Msg.answer).getD []).filter
                    (fun item => item.rrtype == typeA)) ns

/-- After glue resolution: no glue records NoARecordsForNS and continues
the authority loop; otherwise try each glue address in order. -/
def useNextNSGlue (fu : Nat) (lc : LC) (env : LookupEnv) (cache : CacheMap)
    (msg : Msg) (response : Msg) (rest : List RR) (nextSrv : List RR) (ns : RR) :
    (Option Msg × Option Err) × CacheMap :=
  match fu with
  | 0 => ((none, some .fuelOut), cache)
  | fu' + 1 =>
    if nextSrv.length = 0 then
      useNextNSLoop fu' lc env cache msg response rest
        (some (.noARecordsForNS ns.name))
    else
      tryServers fu' lc env cache msg response rest nextSrv none

/-- The inner for-loop of useNextNS over the glue addresses: a recursive
handleRecursive that yields a non-nil message with answers returns it;
any other outcome records that outcome's error (possibly nil) and
continues, resuming the authority loop when the glue addresses are
exhausted. -/
def tryServers (fu : Nat) (lc : LC) (env : LookupEnv) (cache : CacheMap)
    (msg : Msg) (response : Msg) (rest : List RR) (srvs : List RR)
    (err : Option Err) : (Option Msg × Option Err) × CacheMap :=
  match fu with
  | 0 => ((none, some .fuelOut), cache)
  | fu' + 1 =>
    match srvs with
    | [] => useNextNSLoop fu' lc env cache msg response rest err
    | nextDNS :: more =>
      match env.ctx with
      | some e => ((none, some e), cache)
      | none =>
        match handleRecursive fu' lc env cache msg nextDNS.ipOf with
        | ((some result, none), cache2) =>
          if result.answer.length < 1 then
            tryServers fu' lc env cache2 msg response rest more none
          else ((some result, none), cache2)
        | ((_, e2), cache2) =>
          tryServers fu' lc env cache2 msg response rest more e2

/-- tryHandleFromRoots: walk the root IPs in order until one
handleRecursive returns, without error, a non-nil message with answers;
otherwise return nil with the last recorded error (nil when the loop
never ran or the last step returned no error). -/
def tryHandleFromRoots (fu : Nat) (lc : LC) (env : LookupEnv) (cache : CacheMap)
    (msg : Msg) : (Option Msg × Option Err) × CacheMap :=
  match fu with
  | 0 => ((none, some .fuelOut), cache)
  | fu' + 1 => rootsLoop fu' lc env cache msg lc.rootMap none

/-- The for-loop of tryHandleFromRoots with the running last error. -/
def rootsLoop (fu : Nat) (lc : LC) (env : LookupEnv) (cache : CacheMap)
    (msg : Msg) (roots : List Nat) (err : Option Err) :
    (Option Msg × Option Err) × CacheMap :=
  match fu with
  | 0 => ((none, some .fuelOut), cache)
  | fu' + 1 =>
    match roots with
    | [] => ((none, err), cache)
    | ip :: restIps =>
      match env.ctx with
      | some e => ((none, some e), cache)
      | none =>
        match handleRecursive fu' lc env cache msg ip with
        | ((some am, none), cache2) =>
          if 0 < am.answer.length then ((some am, none), cache2)
          else rootsLoop fu' lc env cache2 msg restIps none
        | ((none, none), cache2) => rootsLoop fu' lc env cache2 msg restIps none
        | ((_, some e), cache2) => rootsLoop fu' lc env cache2 msg restIps (some e)

/-- assertAnswerForQuestion: if some answer record's type equals the first
question's Qtype return as-is; else if the first answer is a CNAME and no
A record accompanies it, walk the CNAME target from the roots and append
that lookup's answers; else return as-is.  (With an empty answer section
Go would panic indexing Answer[0]; handleRecursive only calls this with
answers present.) -/
def assertAnswerForQuestion (fu : Nat) (lc : LC) (env : LookupEnv) (cache : CacheMap)
    (question answer : Msg) : (Option Msg × Option Err) × CacheMap :=
  match fu with
  | 0 => ((none, some .fuelOut), cache)
  | fu' + 1 =>
    match env.ctx with
    | some e => ((none, some e), cache)
    | none =>
      if answer.answer.any (fun rr => rr.rrtype == question.q0type) then
        ((some answer, none), cache)
      else
        match answer.answer with
        | [] => ((some answer, none), cache)
        | first :: _ =>
          if first.rrtype = typeCNAME ∧
              answer.answer.any (fun rr => rr.rrtype == typeA) = false then
            match tryHandleFromRoots fu' lc env cache
                (newQuestionMsg first.cnameTargetOf) with
            | ((_, some e), cache2) => ((none, some e), cache2)
            | ((newAnswerOpt, none), cache2) =>
              ((some { answer with
                  answer := answer.answer ++ ((newAnswerOpt.map Msg.answer).getD []) },
                none), cache2)
          else ((some answer, none), cache)

end

/-- The body of the fallbackLookup closure after its guard: a fresh
deadline context (modelled by the same environment), handleRecursive at
the configured fallback resolver, wrapping any error in DomainNotFound
keyed by the first question's name. -/
def fallbackRun (fu : Nat) (lc : LC) (env : LookupEnv) (cache : CacheMap)
    (msg : Msg) : (Option Msg × Option Err) × CacheMap :=
  match handleRecursive fu lc env cache msg lc.fallbackTargetNS with
  | ((answer, none), cache2) => ((answer, none), cache2)
  | ((_, some e), cache2) =>
    ((none, some (.domainNotFound msg.q0name e)), cache2)

/-- The fallbackLookup closure of Handle: with a non-nil error in
non-recursive mode the error is returned as-is; otherwise the fallback
resolver is consulted. -/
def fallbackLookup (fu : Nat) (lc : LC) (env : LookupEnv) (cache : CacheMap)
    (msg : Msg) (e : Option Err) : (Option Msg × Option Err) × CacheMap :=
  match e with
  | some err =>
    if lc.recursive = false then ((none, some err), cache)
    else fallbackRun fu lc env cache msg
  | none => fallbackRun fu lc env cache msg

/-- Handle, in the case where the lookup goroutine completes before the
5-second deadline (the ctx.Done select arm, a timing event, is outside
the embedding): recursive mode walks from the roots, else the fallback
path runs directly; a goroutine error is retried through fallbackLookup,
a nil error delivers the message as-is, nil or not. -/
def Handle (fu : Nat) (lc : LC) (env : LookupEnv) (cache : CacheMap)
    (msg : Msg) : (Option Msg × Option Err) × CacheMap :=
  match (if lc.recursive then tryHandleFromRoots fu lc env cache msg
         else fallbackLookup fu lc env cache msg none) with
  | ((m, none), cache2) => ((m, none), cache2)
  | ((_, some e), cache2) => fallbackLookup fu lc env cache2 msg (some e)

/-! ## Proxy front-end (internal/proxy/handler.go) -/

/-- Proxy.handleRequest and singleFlightRequestHandler collapsed over the
two channels: the worker sends exactly one value, an error (wrapped by
handleRequest's fmt.Errorf) on the error channel or the response message
(possibly nil) on the response channel, and flightGroup.Do hands that
outcome to every caller of the flight. -/
def singleFlightRequestHandler (handleRes : Option Msg × Option Err) :
    Option Msg × Option Err :=
  match handleRes.2 with
  | some e => (none, some (.lookupFailed e))
  | none => (handleRes.1, none)

/-- What one datagram's handling ends in: a reply written to the peer, or
an error logged with no reply, or the DNSResponseNilWithoutError internal
error logged with no reply. -/
inductive HandlerOutcome where
  | wrote (rsp : Msg)
  | loggedErr (e : Err)
  | loggedNilNoErr (name : String)
deriving DecidableEq, Repr

/-- rsp.SetReply(r): a fresh reply carrying the request's id and question
with the response bit set (the flags word is modelled as 1). -/
def setReply (r : Msg) : Msg :=
  { id := r.id, flags := 1, question := r.question, answer := [], ns := [], extra := [] }

/-- Proxy.handler for one datagram, given the cache lookup's result and
the single-flight result used on a miss: a non-nil error is logged and no
reply written; a nil message without error logs DNSResponseNilWithoutError
(keyed by the first question's name) and no reply is written; otherwise
each non-empty section is spliced into the reply and the reply is
written. -/
def ProxyHandler (r : Msg) (cacheRes : Option Msg × Bool)
    (flightRes : Option Msg × Option Err) : HandlerOutcome :=
  let rsp := setReply r
  let res := if cacheRes.2 then (cacheRes.1, (none : Option Err)) else flightRes
  match res.2 with
  | some e => .loggedErr e
  | none =>
    match res.1 with
    | none => .loggedNilNoErr r.q0name
    | some m =>
      .wrote { rsp with
        answer := if 0 < m.answer.length then m.answer else rsp.answer
        ns := if 0 < m.ns.length then m.ns else rsp.ns
        extra := if 0 < m.extra.length then m.extra else rsp.extra }

/-! ## Claims C8 and C9 about the lookup coordinator -/

theorem handleRecursive_allEmpty (lc : LC) (env : LookupEnv)
    (hctx : env.ctx = none) (hacq : env.acquire = none)
    (hex : ∀ ip m, ∃ rsp, env.exch ip m = Except.ok rsp ∧ rsp.answer = [] ∧ rsp.ns = [])
    (fu : Nat) (h3 : 3 ≤ fu) (cache : CacheMap) (msg : Msg) (srv : Nat) :
    handleRecursive fu lc env cache msg srv = ((none, none), cache) := by
  obtain ⟨k, rfl⟩ : ∃ k, fu = k + 3 := ⟨fu - 3, by omega⟩
  obtain ⟨rsp, hrsp, hans, hns⟩ := hex srv msg
  simp [handleRecursive, useNextNS, useNextNSLoop, hctx, hacq, hrsp, hans, hns]

theorem rootsLoop_allEmpty (lc : LC) (env : LookupEnv)
    (hctx : env.ctx = none) (hacq : env.acquire = none)
    (hex : ∀ ip m, ∃ rsp, env.exch ip m = Except.ok rsp ∧ rsp.answer = [] ∧ rsp.ns = []) :
    ∀ (roots : List Nat) (fu : Nat), roots.length + 4 ≤ fu →
      ∀ (cache : CacheMap) (msg : Msg),
      rootsLoop fu lc env cache msg roots none = ((none, none), cache) := by
  intro roots
  induction roots with
  | nil =>
    intro fu hfu cache msg
    obtain ⟨k, rfl⟩ : ∃ k, fu = k + 1 := ⟨fu - 1, by omega⟩
    simp [rootsLoop]
  | cons ip restIps ih =>
    intro fu hfu cache msg
    simp only [List.length_cons] at hfu
    obtain ⟨k, rfl⟩ : ∃ k, fu = k + 1 := ⟨fu - 1, by omega⟩
    have hhr := handleRecursive_allEmpty lc env hctx hacq hex k (by omega) cache msg ip
    have hih := ih k (by omega) cache msg
    simp [rootsLoop, hctx, hhr, hih]

theorem tryHandleFromRoots_allEmpty (lc : LC) (env : LookupEnv)
    (hctx : env.ctx = none) (hacq : env.acquire = none)
    (hex : ∀ ip m, ∃ rsp, env.exch ip m = Except.ok rsp ∧ rsp.answer = [] ∧ rsp.ns = [])
    (fu : Nat) (hfu : lc.rootMap.length + 5 ≤ fu) (cache : CacheMap) (msg : Msg) :
    tryHandleFromRoots fu lc env cache msg = ((none, none), cache) := by
  obtain ⟨k, rfl⟩ : ∃ k, fu = k + 1 := ⟨fu - 1, by omega⟩
  have := rootsLoop_allEmpty lc env hctx hacq hex lc.rootMap k (by omega) cache msg
  simp [tryHandleFromRoots, this]

/-- C9: when every upstream exchange yields a response with no answer
records and an empty authority section, useNextNS returns the (nil, nil)
pair (its loop never runs and the recorded error stays nil); the same
pair propagates through tryHandleFromRoots and Handle and through the
single-flight layer, and the front-end handler then ends in the
DNSResponseNilWithoutError log for the request's first question name with
no reply written. -/
theorem C9_nil_without_error (lc : LC) (env : LookupEnv) (cache : CacheMap)
    (msg r response : Msg) (fu : Nat)
    (hctx : env.ctx = none) (hacq : env.acquire = none)
    (hrecursive : lc.recursive = true)
    (hex : ∀ ip m, ∃ rsp, env.exch ip m = Except.ok rsp ∧ rsp.answer = [] ∧ rsp.ns = [])
    (hresp : response.ns = [])
    (hfu : lc.rootMap.length + 5 ≤ fu) :
    (useNextNS fu lc env cache msg response).1 = (none, none) ∧
    (tryHandleFromRoots fu lc env cache msg).1 = (none, none) ∧
    (Handle fu lc env cache msg).1 = (none, none) ∧
    singleFlightRequestHandler (Handle fu lc env cache msg).1 = (none, none) ∧
    ProxyHandler r (none, false) (singleFlightRequestHandler (Handle fu lc env cache msg).1) =
      HandlerOutcome.loggedNilNoErr r.q0name := by
  have h1 : useNextNS fu lc env cache msg response = ((none, none), cache) := by
    obtain ⟨k2, rfl⟩ : ∃ k2, fu = k2 + 2 := ⟨fu - 2, by omega⟩
    simp [useNextNS, useNextNSLoop, hresp]
  have h2 : tryHandleFromRoots fu lc env cache msg = ((none, none), cache) :=
    tryHandleFromRoots_allEmpty lc env hctx hacq hex fu hfu cache msg
  have h3 : Handle fu lc env cache msg = ((none, none), cache) := by
    simp [Handle, hrecursive, h2]
  have h4 : singleFlightRequestHandler (Handle fu lc env cache msg).1 = (none, none) := by
    rw [h3]
    rfl
  refine ⟨by rw [h1], by rw [h2], by rw [h3], h4, ?_⟩
  rw [h4]
  rfl

def c9Rsp : Msg := { id := 0, flags := 0, question := [], answer := [], ns := [], extra := [] }

def c9LC : LC := { rootMap := [1], fallbackTargetNS := 8, recursive := true }

def c9Env : LookupEnv :=
  { ctx := none, acquire := none, exch := fun _ _ => Except.ok c9Rsp, now := 0 }

/-- Closed instance of C9_nil_without_error with one root server that
always answers with empty sections. -/
theorem C9_nil_without_error_witness :
    (useNextNS 6 c9LC c9Env CacheMap.empty c1Req c9Rsp).1 = (none, none) ∧
    (tryHandleFromRoots 6 c9LC c9Env CacheMap.empty c1Req).1 = (none, none) ∧
    (Handle 6 c9LC c9Env CacheMap.empty c1Req).1 = (none, none) ∧
    singleFlightRequestHandler (Handle 6 c9LC c9Env CacheMap.empty c1Req).1 = (none, none) ∧
    ProxyHandler c1Req (none, false)
      (singleFlightRequestHandler (Handle 6 c9LC c9Env CacheMap.empty c1Req).1) =
      HandlerOutcome.loggedNilNoErr c1Req.q0name :=
  C9_nil_without_error c9LC c9Env CacheMap.empty c1Req c1Req c9Rsp 6 rfl rfl rfl
    (fun _ _ => ⟨c9Rsp, rfl, rfl, rfl⟩) rfl (by decide)

/-- C8: in assertAnswerForQuestion, when the context is live, the answer
section contains no record of the question's Qtype, its first answer is a
CNAME and no A record accompanies it, the CNAME target is looked up from
the roots (tryHandleFromRoots on a fresh type-A question for the target);
when that lookup succeeds the original answer is returned with the target
lookup's answers appended, so the final answer section contains the CNAME
record and every record of the target lookup. -/
theorem C8_cname_chase (lc : LC) (env : LookupEnv) (cache cache2 : CacheMap)
    (question answer newAnswer : Msg) (first : RR) (rest : List RR)
    (target : String) (fu : Nat)
    (hctx : env.ctx = none)
    (hans : answer.answer = first :: rest)
    (hnoq : answer.answer.any (fun rr => rr.rrtype == question.q0type) = false)
    (hcname : first.rrtype = typeCNAME)
    (htarget : first.rdata = RData.cname target)
    (hnoA : answer.answer.any (fun rr => rr.rrtype == typeA) = false)
    (hroots : tryHandleFromRoots fu lc env cache (newQuestionMsg target) =
      ((some newAnswer, none), cache2)) :
    assertAnswerForQuestion (fu + 1) lc env cache question answer =
      ((some { answer with answer := answer.answer ++ newAnswer.answer }, none), cache2) ∧
    first ∈ answer.answer ++ newAnswer.answer ∧
    ∀ rr ∈ newAnswer.answer, rr ∈ answer.answer ++ newAnswer.answer := by
  have hnoq2 : (first :: rest).any (fun rr => rr.rrtype == question.q0type) = false := by
    rw [← hans]
    exact hnoq
  have hnoA2 : (first :: rest).any (fun rr => rr.rrtype == typeA) = false := by
    rw [← hans]
    exact hnoA
  have htgt : first.cnameTargetOf = target := by
    unfold RR.cnameTargetOf
    rw [htarget]
  refine ⟨?_, ?_, ?_⟩
  · simp [assertAnswerForQuestion, hctx, hans, hnoq2, hnoA2, hcname, htgt, hroots]
  · rw [hans]
    exact List.mem_append_left _ (List.mem_cons_self _ _)
  · intro rr hrr
    exact List.mem_append_right _ hrr

def c8First : RR :=
  { name := "alias.example.", rrtype := typeCNAME, ttl := 60,
    rdata := .cname "target.example." }

def c8Answer : Msg :=
  { id := 0, flags := 0, question := [{ name := "alias.example.", qtype := typeA }]
    answer := [c8First], ns := [], extra := [] }

def c8TargetA : RR :=
  { name := "target.example.", rrtype := typeA, ttl := 60, rdata := .a 93 }

def c8TargetRsp : Msg :=
  { id := 0, flags := 0, question := [], answer := [c8TargetA], ns := [], extra := [] }

def c8LC : LC := { rootMap := [1], fallbackTargetNS := 8, recursive := true }

def c8Env : LookupEnv :=
  { ctx := none, acquire := none, exch := fun _ _ => Except.ok c8TargetRsp, now := 0 }

def c8Cache2 : CacheMap :=
  Cache.Set CacheMap.empty 0 (newQuestionMsg "target.example.") c8TargetRsp

/-- Closed instance of C8_cname_chase: a CNAME-only answer for an A
question, with a root server that answers the target question with the
target's A record. -/
theorem C8_cname_chase_witness :
    assertAnswerForQuestion 5 c8LC c8Env CacheMap.empty c8Answer c8Answer =
      ((some { c8Answer with answer := c8Answer.answer ++ c8TargetRsp.answer }, none),
        c8Cache2) ∧
    c8First ∈ c8Answer.answer ++ c8TargetRsp.answer ∧
    ∀ rr ∈ c8TargetRsp.answer, rr ∈ c8Answer.answer ++ c8TargetRsp.answer :=
  C8_cname_chase c8LC c8Env CacheMap.empty c8Cache2 c8Answer c8Answer c8TargetRsp
    c8First [] "target.example." 4 rfl rfl (by decide) rfl rfl (by decide) rfl
